import Mathlib

/-!
Verification development for the crime-statistics import pipeline
(`import_estat.py`): prefecture resolution, crime-category mapping,
CSV row parsing for the three supported layouts, deduplication and
upsert planning.

Embedding conventions:
* Python strings are Lean `String`s; character-level operations
  (`strip`, substring tests, `endswith`) are carried out on `String.data`.
* Python `str.strip` removes Unicode whitespace; the inputs of this
  pipeline only exercise ASCII whitespace and the ideographic space,
  which is what `pyStripChars` removes.
* Python's builtin `int(...)` is modelled by `pyIntChars`: optional
  surrounding whitespace, an optional sign, then a nonempty digit string
  with single underscores allowed between digits (ASCII digits; the
  inputs of this pipeline contain no other Unicode digit forms).
* The float coordinate literals of the master table are never used
  arithmetically — they are only interpolated into the `location`
  string — so they are carried as their decimal renderings (Python's
  shortest-roundtrip `repr`, e.g. `140.7400` prints as `140.74`).
* File IO and the database session are external; the reader is modelled
  over an abstract per-encoding decode function, and the upsert is
  modelled as the emitted write batch.
-/

namespace CrimeMap

/-- Characters stripped by Python `str.strip` that occur in this data:
ASCII whitespace plus the ideographic space U+3000. -/
def isPySpace (c : Char) : Bool :=
  c = ' ' || c = '\t' || c = '\n' || c = '\r' || c = '\x0b' || c = '\x0c' || c = '　'

/-- Python `str.strip` on a character list. -/
def pyStripChars (l : List Char) : List Char :=
  ((l.dropWhile isPySpace).reverse.dropWhile isPySpace).reverse

/-- Python `str.strip` on a `String`. -/
def pyStrip (s : String) : String :=
  ⟨pyStripChars s.data⟩

/-- Contiguous-sublist test on character lists. -/
def infixB (needle : List Char) : List Char → Bool
  | [] => needle.isEmpty
  | c :: cs => needle.isPrefixOf (c :: cs) || infixB needle cs

/-- Python `needle in hay` (substring containment). -/
def strContains (hay needle : String) : Bool :=
  infixB needle.data hay.data

/-- Python `s.startswith(p)`. -/
def strStarts (s p : String) : Bool :=
  p.data.isPrefixOf s.data

/-- Python `s.endswith(p)`. -/
def strEnds (s p : String) : Bool :=
  p.data.isSuffixOf s.data

/-- Python `str.isdigit` restricted to ASCII digits (the only digit
forms these files contain). -/
def pyIsDigit (l : List Char) : Bool :=
  !l.isEmpty && l.all Char.isDigit

/-- Numeric value of a string of ASCII digits. -/
def digitsToNat (l : List Char) : Nat :=
  l.foldl (fun a c => 10 * a + (c.toNat - '0'.toNat)) 0

/-- Digit-string acceptor of Python `int`: after the first digit, single
underscores are allowed between digits. -/
def pyDigitsAux : Nat → List Char → Option Nat
  | acc, [] => some acc
  | acc, '_' :: c :: cs =>
      if c.isDigit then pyDigitsAux (10 * acc + (c.toNat - '0'.toNat)) cs else none
  | acc, c :: cs =>
      if c.isDigit then pyDigitsAux (10 * acc + (c.toNat - '0'.toNat)) cs else none

/-- Digit-string acceptor of Python `int`: nonempty, starts with a digit. -/
def pyDigits : List Char → Option Nat
  | [] => none
  | c :: cs => if c.isDigit then pyDigitsAux (c.toNat - '0'.toNat) cs else none

/-- Python builtin `int(s)` on a character list: strips whitespace,
accepts an optional sign, then a digit string; `none` models the
`ValueError` of an unparsable string. -/
def pyIntChars (l : List Char) : Option Int :=
  match pyStripChars l with
  | [] => none
  | c :: rest =>
    if c = '-' then (pyDigits rest).map (fun n => -(Int.ofNat n))
    else if c = '+' then (pyDigits rest).map (fun n => Int.ofNat n)
    else (pyDigits (c :: rest)).map (fun n => Int.ofNat n)

/-- Source `_parse_int`: strip, delete every comma and every
minus-sign variant (U+2212, ASCII hyphen, full-width minus), then
`int(...)`; `None` on failure.  Deleting each occurrence of a
one-character substring is exactly `str.replace(c, "")`. -/
def parse_int (s : String) : Option Int :=
  pyIntChars ((pyStripChars s.data).filter
    (fun c => !(c = ',' || c = '−' || c = '-' || c = '－')))

/-- Association-list lookup modelling Python `dict.get` on a dict built
by inserting the pairs in list order with distinct keys. -/
def assocFind {α β : Type} [DecidableEq α] (l : List (α × β)) (k : α) : Option β :=
  (l.find? (fun p => decide (p.1 = k))).map Prod.snd

/-- One line of the source `PREFECTURE_MASTER` table. -/
structure PrefEntry where
  code : String
  name : String
  lat : String
  lng : String
deriving DecidableEq, Repr

/-- Source `PREFECTURE_MASTER`, coordinates as their Python `repr`. -/
def PREFECTURE_MASTER : List PrefEntry := [
  ⟨"01", "北海道", "43.0642", "141.3469"⟩,
  ⟨"02", "青森県", "40.8244", "140.74"⟩,
  ⟨"03", "岩手県", "39.7036", "141.1527"⟩,
  ⟨"04", "宮城県", "38.2688", "140.8721"⟩,
  ⟨"05", "秋田県", "39.7186", "140.1023"⟩,
  ⟨"06", "山形県", "38.2404", "140.3636"⟩,
  ⟨"07", "福島県", "37.7608", "140.4747"⟩,
  ⟨"08", "茨城県", "36.3418", "140.4468"⟩,
  ⟨"09", "栃木県", "36.5657", "139.8836"⟩,
  ⟨"10", "群馬県", "36.3911", "139.0608"⟩,
  ⟨"11", "埼玉県", "35.857", "139.6489"⟩,
  ⟨"12", "千葉県", "35.6047", "140.1233"⟩,
  ⟨"13", "東京都", "35.6894", "139.6917"⟩,
  ⟨"14", "神奈川県", "35.4475", "139.6425"⟩,
  ⟨"15", "新潟県", "37.9023", "139.0235"⟩,
  ⟨"16", "富山県", "36.6953", "137.2113"⟩,
  ⟨"17", "石川県", "36.5944", "136.6256"⟩,
  ⟨"18", "福井県", "36.0652", "136.2219"⟩,
  ⟨"19", "山梨県", "35.6642", "138.5681"⟩,
  ⟨"20", "長野県", "36.6513", "138.181"⟩,
  ⟨"21", "岐阜県", "35.3912", "136.7223"⟩,
  ⟨"22", "静岡県", "34.9769", "138.3831"⟩,
  ⟨"23", "愛知県", "35.1802", "136.9066"⟩,
  ⟨"24", "三重県", "34.7303", "136.5086"⟩,
  ⟨"25", "滋賀県", "35.0045", "135.8686"⟩,
  ⟨"26", "京都府", "35.0211", "135.7556"⟩,
  ⟨"27", "大阪府", "34.6863", "135.52"⟩,
  ⟨"28", "兵庫県", "34.6913", "135.183"⟩,
  ⟨"29", "奈良県", "34.6851", "135.8328"⟩,
  ⟨"30", "和歌山県", "34.2261", "135.1675"⟩,
  ⟨"31", "鳥取県", "35.5036", "134.2383"⟩,
  ⟨"32", "島根県", "35.4722", "133.0505"⟩,
  ⟨"33", "岡山県", "34.6617", "133.9344"⟩,
  ⟨"34", "広島県", "34.3963", "132.4596"⟩,
  ⟨"35", "山口県", "34.1861", "131.4706"⟩,
  ⟨"36", "徳島県", "34.0658", "134.5593"⟩,
  ⟨"37", "香川県", "34.3401", "134.0434"⟩,
  ⟨"38", "愛媛県", "33.8416", "132.7657"⟩,
  ⟨"39", "高知県", "33.5597", "133.5311"⟩,
  ⟨"40", "福岡県", "33.6064", "130.4183"⟩,
  ⟨"41", "佐賀県", "33.2494", "130.2988"⟩,
  ⟨"42", "長崎県", "32.7503", "129.8777"⟩,
  ⟨"43", "熊本県", "32.7898", "130.7417"⟩,
  ⟨"44", "大分県", "33.2382", "131.6126"⟩,
  ⟨"45", "宮崎県", "31.911", "131.4239"⟩,
  ⟨"46", "鹿児島県", "31.5602", "130.5581"⟩,
  ⟨"47", "沖縄県", "26.2124", "127.6809"⟩]

/-- Source `_PREF_BY_NAME`: name keyed to `(code, lat, lng)`, in master
table order (Python dicts preserve insertion order; names are distinct). -/
def prefByName : List (String × String × String × String) :=
  PREFECTURE_MASTER.map (fun e => (e.name, e.code, e.lat, e.lng))

/-- Source `_PREF_ALIAS`. -/
def PREF_ALIAS : List (String × String) := [
  ("北海道", "北海道"),
  ("東京", "東京都"),
  ("大阪", "大阪府"),
  ("京都", "京都府"),
  ("神奈川", "神奈川県"),
  ("和歌山", "和歌山県"),
  ("鹿児島", "鹿児島県")]

/-- Last-resort fuzzy pass of `_lookup_pref`: first entry in table
order whose name contains the input or is contained in the input. -/
def prefFuzzy (n : String) : Option (String × String × String) :=
  (prefByName.find? (fun p => strContains p.1 n || strContains n p.1)).map Prod.snd

/-- Source `_lookup_pref`: exact match, then alias resolution (the
Python code checks the alias value for truthiness before using it),
then the fuzzy pass; `none` when everything fails. -/
def lookup_pref (name : String) : Option (String × String × String) :=
  let n := pyStrip name
  match assocFind prefByName n with
  | some v => some v
  | none =>
    match assocFind PREF_ALIAS n with
    | some canonical =>
      if canonical ≠ "" then
        match assocFind prefByName canonical with
        | some v => some v
        | none => prefFuzzy n
      else prefFuzzy n
    | none => prefFuzzy n

/-- Source `CRIME_TYPE_MAP` (fine-grained category table, in order). -/
def CRIME_TYPE_MAP : List (String × String) := [
  ("殺人", "殺人・傷害致死"),
  ("強盗", "暴行・傷害"),
  ("放火", "その他"),
  ("不同意性交等", "性犯罪"),
  ("強姦", "性犯罪"),
  ("強制性交等", "性犯罪"),
  ("暴行", "暴行・傷害"),
  ("傷害", "暴行・傷害"),
  ("傷害致死", "殺人・傷害致死"),
  ("脅迫", "暴行・傷害"),
  ("恐喝", "暴行・傷害"),
  ("凶器準備集合", "暴行・傷害"),
  ("窃盗", "窃盗・万引き"),
  ("侵入盗", "窃盗・万引き"),
  ("乗り物盗", "窃盗・万引き"),
  ("非侵入盗", "窃盗・万引き"),
  ("ひったくり", "窃盗・万引き"),
  ("すり", "窃盗・万引き"),
  ("自動車盗", "窃盗・万引き"),
  ("詐欺", "詐欺"),
  ("横領", "詐欺"),
  ("偽造", "詐欺"),
  ("背任", "詐欺"),
  ("汚職", "詐欺"),
  ("わいせつ", "性犯罪"),
  ("強制わいせつ", "性犯罪"),
  ("不同意わいせつ", "性犯罪"),
  ("賭博", "その他"),
  ("住居侵入", "その他"),
  ("器物損壊", "その他"),
  ("公務執行妨害", "その他"),
  ("略取誘拐", "その他"),
  ("人身売買", "その他"),
  ("占有離脱物横領", "その他")]

/-- Source `_CATEGORY_FALLBACK` (umbrella keyword table, in order). -/
def CATEGORY_FALLBACK : List (String × String) := [
  ("凶悪犯", "殺人・傷害致死"),
  ("粗暴犯", "暴行・傷害"),
  ("窃盗犯", "窃盗・万引き"),
  ("知能犯", "詐欺"),
  ("風俗犯", "性犯罪"),
  ("重要犯罪", "その他")]

/-- Source `_map_crime_type`: exact table match, then first umbrella
keyword occurring in the input, else the default bucket. -/
def map_crime_type (category : String) : String :=
  let s := pyStrip category
  match assocFind CRIME_TYPE_MAP s with
  | some v => v
  | none =>
    match CATEGORY_FALLBACK.find? (fun kv => strContains s kv.1) with
    | some kv => kv.2
    | none => "その他"

/-- Parser output unit (the dicts produced by `parse_rows` and
`_parse_npa_table_section`): `year` is `none` when neither the file nor
the caller supplied one. -/
structure IntermediateRecord where
  year : Option Int
  prefecture_name : String
  crime_category : String
  count_recognized : Option Int
  count_cleared : Option Int
  count_arrested : Option Int
deriving DecidableEq, Repr

/-- First index of a header name, modelling Python `list.index` /
the `idx` dict of `parse_rows` (each name keyed to its first index). -/
def idxOf (h : List String) (name : String) : Nat :=
  h.indexOf name

/-- Python `max(idx.values())`: the largest first-index over the names
of the header row (duplicates collapse to the same value). -/
def maxIdxVal (h : List String) : Nat :=
  (h.map (fun n => idxOf h n)).foldl max 0

/-- Cell access `row[i]`; every access of the embedded code is
in range whenever the source's is, so the default is never returned
on inputs the source accepts. -/
def cell (row : List String) (i : Nat) : String :=
  row.getD i ""

/-- Prefecture-column choice of the format-A branch:
`idx.get("都道府県", idx.get("prefecture", 0))`. -/
def prefIdxA (h : List String) : Nat :=
  if "都道府県" ∈ h then idxOf h "都道府県"
  else if "prefecture" ∈ h then idxOf h "prefecture" else 0

/-- Record built by the format-A loop body from one kept row. -/
def formatARecord (h : List String) (default_year : Option Int)
    (row : List String) : IntermediateRecord :=
  { year :=
      if pyIsDigit ((cell row (idxOf h "日付")).data.take 4) then
        some (Int.ofNat (digitsToNat ((cell row (idxOf h "日付")).data.take 4)))
      else default_year
    prefecture_name := pyStrip (cell row (prefIdxA h))
    crime_category := pyStrip (cell row (idxOf h "罪種"))
    count_recognized :=
      if "認知件数" ∈ h then parse_int (cell row (idxOf h "認知件数")) else none
    count_cleared :=
      if "検挙件数" ∈ h then parse_int (cell row (idxOf h "検挙件数")) else none
    count_arrested :=
      if "検挙人員" ∈ h then parse_int (cell row (idxOf h "検挙人員")) else none }

/-- Loop body of the format-A branch of `parse_rows` (e-Stat table 6,
date-keyed): `none` models `continue`, both for a row shorter than the
largest header index and for the nationwide/regional rollup skip. -/
def formatARow (h : List String) (default_year : Option Int)
    (row : List String) : Option IntermediateRecord :=
  if row.length ≤ maxIdxVal h then none
  else if pyStrip (cell row (prefIdxA h)) = "" ∨ pyStrip (cell row (prefIdxA h)) = "全国" ∨
      pyStrip (cell row (prefIdxA h)) = "計" ∨
      strContains (pyStrip (cell row (prefIdxA h))) "管区" then none
  else some (formatARecord h default_year row)

/-- Loop body of the format-B branch of `parse_rows` (column positions
already located from the header).  The cleared/arrested columns are
used only when their index is truthy in Python, i.e. not `None` and
not `0`. -/
def formatBRow (pref_col : Nat) (crime_col : Option Nat) (recog_col : Nat)
    (clear_col arrest_col year_col : Option Nat) (default_year : Option Int)
    (row : List String) : Option IntermediateRecord :=
  if row = [] ∨ row.length ≤ recog_col then none
  else
    let pref := pyStrip (cell row pref_col)
    let crime := match crime_col with
      | some i => pyStrip (cell row i)
      | none => "総数"
    let year : Option Int := match year_col with
      | some i => if pyIsDigit (cell row i).data
                  then some (digitsToNat (cell row i).data) else default_year
      | none => default_year
    if pref = "" ∨ pref = "全国" ∨ pref = "計" ∨ strContains pref "管区" then none
    else some ⟨year, pref, crime,
      parse_int (cell row recog_col),
      (match clear_col with
       | some i => if i ≠ 0 then parse_int (cell row i) else none
       | none => none),
      (match arrest_col with
       | some i => if i ≠ 0 then parse_int (cell row i) else none
       | none => none)⟩

/-- Source `parse_rows`: strip the header, take the date-keyed branch
when both the date and crime-kind columns are present by exact name,
otherwise locate columns by substring and take the simple-table branch;
`error` models the `ValueError` for an unsupported header. -/
def parse_rows (headers : List String) (rows : List (List String))
    (default_year : Option Int) : Except String (List IntermediateRecord) :=
  let h := headers.map pyStrip
  if "日付" ∈ h ∧ "罪種" ∈ h then
    .ok (rows.filterMap (formatARow h default_year))
  else
    let pref_col := h.findIdx? (fun c => strContains c "都道府県" || c = "prefecture")
    let crime_col := h.findIdx? (fun c => strContains c "罪種" || strContains c.toLower "category")
    let recog_col := h.findIdx? (fun c => strContains c "認知件数")
    let clear_col := h.findIdx? (fun c => strContains c "検挙件数")
    let arrest_col := h.findIdx? (fun c => strContains c "検挙人員")
    let year_col := h.findIdx? (fun c => c = "年" || strContains c.toLower "year")
    match pref_col, recog_col with
    | some pc, some rc =>
      .ok (rows.filterMap (formatBRow pc crime_col rc clear_col arrest_col year_col default_year))
    | _, _ => .error "対応していないCSVフォーマットです。"

/-- Source `_pref_from_row`: prefecture name of a table 3/6 data row,
or `none` for a row to skip. -/
def pref_from_row (col0 col1 : String) : Option String :=
  let c0 := pyStrip col0
  let c1 := pyStrip col1
  if c0 = "北海道" ∧ c1 = "計" then some "北海道"
  else if c0 = "東京都" ∧ c1 = "" then some "東京都"
  else if strEnds c1 "府" || strEnds c1 "県" then some c1
  else none

/-- Loop body of `_parse_npa_table_section`: one raw row to at most one
record.  Indices 2, 6 and 10 are in range because the row has at least
11 cells, so the guarded `IndexError` of the source never fires; the
`if not pref` truthiness test also skips an empty name. -/
def npaRowRecord (year : Int) (crime_category : String)
    (row : List String) : Option IntermediateRecord :=
  if row.length < 11 then none
  else
    match pref_from_row (cell row 0) (cell row 1) with
    | none => none
    | some pref =>
      if pref = "" then none
      else
        match parse_int (cell row 2) with
        | none => none
        | some n =>
          some ⟨some year, pref, crime_category, some n,
                parse_int (cell row 6), parse_int (cell row 10)⟩

/-- Source `_parse_npa_table_section` over the slice `rows[start:end]`. -/
def parse_npa_table_section (rows : List (List String)) (start fin : Nat)
    (year : Int) (crime_category : String) : List IntermediateRecord :=
  ((rows.drop start).take (fin - start)).filterMap (npaRowRecord year crime_category)

/-- Open-parenthesis characters of the section-label pattern. -/
def isOpenParen (c : Char) : Bool := c = '（' || c = '('

/-- Close-parenthesis characters of the section-label pattern. -/
def isCloseParen (c : Char) : Bool := c = '）' || c = ')'

/-- Group of `re.search` continuing after an open parenthesis: the
nonempty run of non-closing characters, provided a closing character
follows it. -/
def parenGroupAfter (cs : List Char) : Option (List Char) :=
  let run := cs.takeWhile (fun c => !isCloseParen c)
  if run.isEmpty then none
  else if run.length < cs.length then some run
  else none

/-- Leftmost match of the source pattern `[（(]([^）)]+)[）)]`: the first
open parenthesis from which a group can be completed. -/
def findParenGroup : List Char → Option (List Char)
  | [] => none
  | c :: cs =>
    if isOpenParen c then
      match parenGroupAfter cs with
      | some g => some g
      | none => findParenGroup cs
    else findParenGroup cs

/-- Denylist of aggregate parenthetical labels of the table-6 branch. -/
def NPA_DENYLIST : List String :=
  ["重要犯罪総数", "重要窃盗犯総数", "侵入盗−住宅対象", "侵入盗−その他"]

/-- Table-6 branch of the section scan: the parenthetical label of the
row, unless it is denylisted or absent. -/
def table6Label (row : List String) : Option String :=
  match findParenGroup (String.join row).data with
  | some g =>
    if pyStrip ⟨g⟩ ∈ NPA_DENYLIST then none else some (pyStrip ⟨g⟩)
  | none => none

/-- Per-row section classification of `parse_npa_monthly`: the crime
category of the section a row starts, `none` when it starts no section. -/
def sectionOfRow (row : List String) : Option String :=
  match row with
  | [] => none
  | c0raw :: _ =>
    if c0raw = "" then none
    else
      let cell0 := pyStrip c0raw
      if cell0 = "第３表" ∨ (strStarts cell0 "第" ∧ strContains (String.join (row.take 6)) "刑法犯総数") then
        some "刑法犯総数"
      else if cell0 = "第４表" ∧ (row.take 6).any (fun c => strContains c "窃盗") then
        some "窃盗犯"
      else if cell0 = "第６表" then
        table6Label row
      else none

/-- Section-boundary scan of `parse_npa_monthly` (`for i, row in
enumerate(rows)`), accumulating `(row index, section label)` pairs. -/
def detectSections : List (List String) → Nat → List (Nat × String)
  | [], _ => []
  | row :: rest, i =>
    match sectionOfRow row with
    | some cat => (i, cat) :: detectSections rest (i + 1)
    | none => detectSections rest (i + 1)

/-- Header-skipping scan of `parse_npa_monthly`: first index `j` in the
fuel-bounded range whose row has a third cell parsing as an integer. -/
def scanDataStart (rows : List (List String)) : Nat → Nat → Option Nat
  | _, 0 => none
  | j, fuel + 1 =>
    let row := rows.getD j []
    if 2 < row.length ∧ (parse_int (cell row 2)).isSome then some j
    else scanDataStart rows (j + 1) fuel

/-- Per-section loop of `parse_npa_monthly`: each section runs to the
next section start (or the end of the file), its data rows beginning at
the first row within 15 of the marker whose third cell is numeric. -/
def runSections (rows : List (List String)) (year : Int) :
    List (Nat × String) → List IntermediateRecord
  | [] => []
  | (start, cat) :: rest =>
    let fin := match rest with
      | [] => rows.length
      | (s, _) :: _ => s
    let fuel := min (start + 15) fin - (start + 1)
    let dataStart := (scanDataStart rows (start + 1) fuel).getD (start + 1)
    parse_npa_table_section rows dataStart fin year cat ++ runSections rows year rest

/-- Source `parse_npa_monthly` over already-read rows with the year
already resolved; the `error` models the no-sections `ValueError`. -/
def parse_npa_monthly (rows : List (List String)) (year : Int) :
    Except String (List IntermediateRecord) :=
  let sections := detectSections rows 0
  if sections.isEmpty then .error "第3表・第6表のセクションが見つかりませんでした。"
  else .ok (runSections rows year sections)

/-- Row of the upsert write set built by `_insert` (the values handed
to the `INSERT ... ON CONFLICT` statement). -/
structure SinkRow where
  year : Option Int
  prefecture_code : String
  prefecture_name : String
  crime_category : String
  crime_type : String
  count_recognized : Option Int
  count_cleared : Option Int
  count_arrested : Option Int
  location : String
  source : String
deriving DecidableEq, Repr

/-- Canonical prefecture name of a code (`next(n for c, n, *_ in
PREFECTURE_MASTER if c == code)`; total here because the code always
comes from the master table). -/
def masterNameOfCode (code : String) : String :=
  ((PREFECTURE_MASTER.find? (fun e => decide (e.code = code))).map PrefEntry.name).getD ""

/-- Resolution step of `_insert`: one parsed record to one write-set
row, or `none` for the unresolved-prefecture skip. -/
def planRow (rec : IntermediateRecord) : Option SinkRow :=
  match lookup_pref rec.prefecture_name with
  | none => none
  | some (code, lat, lng) =>
    some { year := rec.year
           prefecture_code := code
           prefecture_name := masterNameOfCode code
           crime_category := rec.crime_category
           crime_type := map_crime_type rec.crime_category
           count_recognized := rec.count_recognized
           count_cleared := rec.count_cleared
           count_arrested := rec.count_arrested
           location := "SRID=4326;POINT(" ++ lng ++ " " ++ lat ++ ")"
           source := "npa_estat" }

/-- Natural key used by the in-file deduplication of `_insert`. -/
def dedupKey (r : SinkRow) : Option Int × String × String :=
  (r.year, r.prefecture_code, r.crime_category)

/-- One Python dict assignment `d[k] = v` on an association list in
insertion order: replace in place when the key exists, append otherwise. -/
def updAssoc {α β : Type} [DecidableEq α] :
    List (α × β) → α → β → List (α × β)
  | [], k, v => [(k, v)]
  | (k', v') :: rest, k, v =>
    if k' = k then (k, v) :: rest else (k', v') :: updAssoc rest k v

/-- The `seen` dict of `_insert` after inserting every row in order. -/
def dictInsertAll {α β : Type} [DecidableEq α] (key : β → α) :
    List (α × β) → List β → List (α × β)
  | acc, [] => acc
  | acc, b :: bs => dictInsertAll key (updAssoc acc (key b) b) bs

/-- Deduplication of `_insert`: `list(seen.values())`. -/
def dedupRows (rows : List SinkRow) : List SinkRow :=
  (dictInsertAll dedupKey [] rows).map Prod.snd

/-- Source `_insert` as a pure planner: the `(inserted, skipped)` pair
it returns, together with the write batch it submits — `none` in
dry-run mode (the early return before any database work), the deduped
rows otherwise.  Both branches return the counts computed before the
branch. -/
def insert_plan (records : List IntermediateRecord) (dry_run : Bool) :
    (Nat × Nat) × Option (List SinkRow) :=
  let rows := records.filterMap planRow
  let skipped := records.length - rows.length
  let deduped := dedupRows rows
  let skipped := skipped + (rows.length - deduped.length)
  ((deduped.length, skipped), if dry_run then none else some deduped)

/-- Abstract file for the encoding-resilient readers: what the file's
bytes decode-and-csv-parse to under each encoding name, `none` when
that decoding raises. -/
structure CsvFile where
  decode : String → Option (List (List String))

/-- Encoding preference order of `_read_csv`. -/
def CSV_ENCODINGS : List String := ["utf-8-sig", "utf-8", "shift-jis", "cp932"]

/-- Encoding preference order of `_read_npa_csv`. -/
def NPA_ENCODINGS : List String := ["shift-jis", "cp932", "utf-8-sig", "utf-8"]

/-- Blank-row filter of `_read_csv`: keep a row when some cell is
nonempty after stripping. -/
def nonBlankRows (rows : List (List String)) : List (List String) :=
  rows.filter (fun r => r.any (fun c => decide (pyStrip c ≠ "")))

/-- Encoding loop of `_read_csv`: first encoding that decodes and
yields a non-blank row provides the header and data rows. -/
def read_csv_aux (f : CsvFile) :
    List String → Except String (List String × List (List String))
  | [] => .error "文字コードを判別できませんでした"
  | e :: es =>
    match f.decode e with
    | some rows =>
      match nonBlankRows rows with
      | [] => read_csv_aux f es
      | h :: t => .ok (h, t)
    | none => read_csv_aux f es

/-- Source `_read_csv`. -/
def read_csv (f : CsvFile) : Except String (List String × List (List String)) :=
  read_csv_aux f CSV_ENCODINGS

/-- Encoding loop of `_read_npa_csv`: the first encoding that opens
returns all rows unfiltered.  The source opens with `errors="replace"`,
so its decode step substitutes malformed bytes instead of raising; a
`none` decode here covers only the csv-level `ValueError`. -/
def read_npa_csv_aux (f : CsvFile) :
    List String → Except String (List (List String))
  | [] => .error "文字コードを判別できません"
  | e :: es =>
    match f.decode e with
    | some rows => .ok rows
    | none => read_npa_csv_aux f es

/-- Source `_read_npa_csv`. -/
def read_npa_csv (f : CsvFile) : Except String (List (List String)) :=
  read_npa_csv_aux f NPA_ENCODINGS

/-- Value set of the two category tables together with the default
bucket: the canonical crime-type taxonomy. -/
def TAXONOMY : List String :=
  ["殺人・傷害致死", "暴行・傷害", "性犯罪", "窃盗・万引き", "詐欺", "その他"]

/-- Prefecture-row conditions as worded by the specification, over the
already-stripped first two cells: (a) the Hokkaido name with the
literal total marker, (b) the Tokyo marker with a blank second cell,
(c) a second cell ending in a prefecture-type suffix character. -/
def prefRowSpecName (c0 c1 : String) : Option String :=
  if c0 = "北海道" ∧ c1 = "計" then some "北海道"
  else if c0 = "東京都" ∧ c1 = "" then some "東京都"
  else if strEnds c1 "府" ∨ strEnds c1 "県" then some c1
  else none

/- ── Helper lemmas ─────────────────────────────────────────────────── -/

theorem mem_of_mem_dropWhile {α : Type} {p : α → Bool} {l : List α} {a : α}
    (h : a ∈ l.dropWhile p) : a ∈ l :=
  List.Sublist.mem h (List.dropWhile_sublist p)

theorem mem_of_mem_pyStripChars {l : List Char} {c : Char}
    (h : c ∈ pyStripChars l) : c ∈ l := by
  unfold pyStripChars at h
  rw [List.mem_reverse] at h
  have h1 := mem_of_mem_dropWhile h
  rw [List.mem_reverse] at h1
  exact mem_of_mem_dropWhile h1

/- ── Claims ────────────────────────────────────────────────────────── -/

/-- C10: the shared numeric-cell parser returns either `none` or a
non-negative integer — it deletes commas and every minus-sign variant
before parsing, so no parsed count is negative, and the cell "-5"
yields 5 rather than -5 or a failure. -/
theorem c10_parse_int_nonneg :
    (∀ s : String, ∀ z : Int, parse_int s = some z → 0 ≤ z) ∧
    parse_int "-5" = some 5 := by
  constructor
  · intro s z h
    unfold parse_int pyIntChars at h
    split at h
    · exact absurd h (by simp)
    next c rest heq =>
      have hc : c ≠ '-' := by
        intro hcm
        subst hcm
        have hm : '-' ∈ pyStripChars ((pyStripChars s.data).filter
            (fun c => !(c = ',' || c = '−' || c = '-' || c = '－'))) := by
          rw [heq]; exact List.mem_cons_self _ _
        have hm2 := List.mem_filter.mp (mem_of_mem_pyStripChars hm)
        simp at hm2
      rw [if_neg hc] at h
      by_cases hp : c = '+'
      · rw [if_pos hp] at h
        obtain ⟨n, _, hz⟩ := Option.map_eq_some'.mp h
        rw [← hz]
        exact Int.natCast_nonneg n
      · rw [if_neg hp] at h
        obtain ⟨n, _, hz⟩ := Option.map_eq_some'.mp h
        rw [← hz]
        exact Int.natCast_nonneg n
  · decide

/-- Closed instance of C10 at the input "-5". -/
theorem c10_witness : parse_int "-5" = some 5 ∧ (0 : Int) ≤ 5 :=
  ⟨by decide, c10_parse_int_nonneg.1 "-5" 5 (by decide)⟩

/-- C2: the count pair computed by the upsert planner is the same in
dry-run mode and in a real run on the same input — the planning
computation is shared — and dry-run mode emits no write batch. -/
theorem c2_dry_run_counts_eq :
    ∀ records : List IntermediateRecord,
      (insert_plan records true).1 = (insert_plan records false).1 ∧
      (insert_plan records true).2 = none :=
  fun _ => ⟨rfl, rfl⟩

/-- C8: the crime-category mapper is total into the fixed taxonomy:
exact table match first, otherwise the first umbrella keyword occurring
in the input decides the bucket, otherwise the default bucket; the
sample inputs of the specification behave as stated. -/
theorem c8_map_crime_type_total :
    (∀ s : String, map_crime_type s ∈ TAXONOMY) ∧
    (∀ s v, assocFind CRIME_TYPE_MAP (pyStrip s) = some v → map_crime_type s = v) ∧
    (∀ s, assocFind CRIME_TYPE_MAP (pyStrip s) = none →
      map_crime_type s =
        match CATEGORY_FALLBACK.find? (fun kv => strContains (pyStrip s) kv.1) with
        | some kv => kv.2
        | none => "その他") ∧
    map_crime_type "傷害" = "暴行・傷害" ∧
    map_crime_type "まったく新しい分類" = "その他" := by
  refine ⟨?_, ?_, ?_, by decide, by decide⟩
  · intro s
    unfold map_crime_type
    dsimp only
    split
    next v heq =>
      unfold assocFind at heq
      obtain ⟨p, hp, rfl⟩ := Option.map_eq_some'.mp heq
      have hall : ∀ p ∈ CRIME_TYPE_MAP, p.2 ∈ TAXONOMY := by decide
      exact hall p (List.mem_of_find?_eq_some hp)
    next heq =>
      split
      next kv hkv =>
        have hall : ∀ kv ∈ CATEGORY_FALLBACK, kv.2 ∈ TAXONOMY := by decide
        exact hall kv (List.mem_of_find?_eq_some hkv)
      next => decide
  · intro s v h
    unfold map_crime_type
    dsimp only
    rw [h]
  · intro s h
    unfold map_crime_type
    dsimp only
    rw [h]

/-- Closed instance of C8: the exact-table pass decides "傷害". -/
theorem c8_witness : map_crime_type "傷害" = "暴行・傷害" :=
  c8_map_crime_type_total.2.1 "傷害" "暴行・傷害" (by decide)

/-- C7: the prefecture resolver tries exact match, then alias lookup
followed by exact match, then the fuzzy substring pass (first match in
table order, containment in either direction), returning `none` when
all three fail; "東京" resolves to the triple of "東京都" and
"Atlantis" resolves to `none`. -/
theorem c7_lookup_pref_order :
    (∀ n v, assocFind prefByName (pyStrip n) = some v → lookup_pref n = some v) ∧
    (∀ n c v, assocFind prefByName (pyStrip n) = none →
      assocFind PREF_ALIAS (pyStrip n) = some c →
      assocFind prefByName c = some v → lookup_pref n = some v) ∧
    (∀ n, assocFind prefByName (pyStrip n) = none →
      (∀ c, assocFind PREF_ALIAS (pyStrip n) = some c → assocFind prefByName c = none) →
      lookup_pref n = prefFuzzy (pyStrip n)) ∧
    lookup_pref "東京" = lookup_pref "東京都" ∧
    lookup_pref "東京都" = some ("13", "35.6894", "139.6917") ∧
    lookup_pref "Atlantis" = none := by
  refine ⟨?_, ?_, ?_, by decide, by decide, by decide⟩
  · intro n v h
    simp only [lookup_pref, h]
  · intro n c v h1 h2 h3
    have hc : c ≠ "" := by
      intro he
      subst he
      have hnone : assocFind prefByName ("" : String) = none := by decide
      rw [hnone] at h3
      exact Option.noConfusion h3
    simp only [lookup_pref, h1, h2, h3]
    rw [if_pos hc]
  · intro n h1 h2
    rcases ha : assocFind PREF_ALIAS (pyStrip n) with _ | c
    · simp only [lookup_pref, h1, ha]
    · simp only [lookup_pref, h1, ha, h2 c ha]
      exact ite_self _

/-- Closed instance of C7: the exact pass resolves "北海道". -/
theorem c7_witness : lookup_pref "北海道" = some ("01", "43.0642", "141.3469") :=
  c7_lookup_pref_order.1 "北海道" ("01", "43.0642", "141.3469") (by decide)

/-- C3 counterexample: the Date-Keyed parser does not drop a row whose
recognized-count cell fails to parse — it emits the record with
`count_recognized = none`, so not every record of the three parsers has
the count present. -/
theorem c3_counterexample :
    parse_rows ["日付", "都道府県", "罪種", "認知件数"]
      [["2023-01-01", "東京都", "窃盗", "abc"]] none =
      .ok [⟨some 2023, "東京都", "窃盗", none, none, none⟩] ∧
    parse_int "abc" = none :=
  ⟨rfl, by decide⟩

/-- C3 amended: only the Multi-Section (NPA table) parser guarantees a
present recognized count — every record it produces has
`count_recognized ≠ none`; the Date-Keyed and Simple-Table parsers may
emit records with an absent recognized count. -/
theorem c3_recognized_required_npa_only :
    ∀ rows start fin year cat r,
      r ∈ parse_npa_table_section rows start fin year cat →
      r.count_recognized ≠ none := by
  intro rows start fin year cat r hr
  obtain ⟨row, -, heq⟩ := List.mem_filterMap.mp (by
    unfold parse_npa_table_section at hr; exact hr)
  unfold npaRowRecord at heq
  by_cases hl : row.length < 11
  · rw [if_pos hl] at heq
    exact absurd heq (by simp)
  · rw [if_neg hl] at heq
    rcases hp : pref_from_row (cell row 0) (cell row 1) with _ | pref
    · rw [hp] at heq
      exact absurd heq (by simp)
    · rw [hp] at heq
      dsimp only at heq
      by_cases hpe : pref = ""
      · rw [if_pos hpe] at heq
        exact absurd heq (by simp)
      · rw [if_neg hpe] at heq
        rcases hn : parse_int (cell row 2) with _ | n
        · rw [hn] at heq
          exact absurd heq (by simp)
        · rw [hn] at heq
          dsimp only at heq
          cases heq
          simp

/-- Closed instance of C3: a record of the Multi-Section parser with
its recognized count present. -/
theorem c3_witness :
    (⟨some 2023, "北海道", "刑法犯総数", some 12, some 5, some 3⟩ :
      IntermediateRecord).count_recognized ≠ none :=
  c3_recognized_required_npa_only
    [["北海道", "計", "12", "", "", "", "5", "", "", "", "3"]] 0 1 2023 "刑法犯総数"
    ⟨some 2023, "北海道", "刑法犯総数", some 12, some 5, some 3⟩ (by decide)

theorem prefRowSpec_ne_empty {c0 c1 p : String}
    (h : prefRowSpecName c0 c1 = some p) : p ≠ "" := by
  intro he
  subst he
  unfold prefRowSpecName at h
  split_ifs at h with h1 h2 h3
  · exact absurd h (by decide)
  · exact absurd h (by decide)
  · injection h with h'
    rw [h'] at h3
    exact absurd h3 (by decide)

theorem pref_from_row_eq_spec (c0 c1 : String) :
    pref_from_row c0 c1 = prefRowSpecName (pyStrip c0) (pyStrip c1) := by
  simp only [pref_from_row, prefRowSpecName, Bool.or_eq_true]

/-- C5 counterexample: a data row with 11 cells that is recognized as a
prefecture row yet yields no record, because its third cell does not
parse as an integer — the claimed "exactly when" condition omits the
recognized-count requirement. -/
theorem c5_counterexample :
    parse_npa_table_section
      [["北海道", "計", "x", "", "", "", "", "", "", "", ""]] 0 1 2023 "刑法犯総数" = [] ∧
    (["北海道", "計", "x", "", "", "", "", "", "", "", ""] : List String).length = 11 ∧
    pref_from_row "北海道" "計" = some "北海道" :=
  ⟨by decide, by decide, by decide⟩

/-- C5 amended: a data row yields a record exactly when it has at least
11 cells, is recognized as a prefecture row by conditions (a)/(b)/(c),
and its cell at position 3 parses as an integer; the record then reads
positions 3, 7 and 11 (1-based) as the recognized/cleared/arrested
counts. -/
theorem c5_row_interpretation :
    ∀ year cat row r,
      npaRowRecord year cat row = some r ↔
        (11 ≤ row.length ∧ ∃ pref n,
          prefRowSpecName (pyStrip (cell row 0)) (pyStrip (cell row 1)) = some pref ∧
          parse_int (cell row 2) = some n ∧
          r = ⟨some year, pref, cat, some n,
               parse_int (cell row 6), parse_int (cell row 10)⟩) := by
  intro year cat row r
  unfold npaRowRecord
  rw [pref_from_row_eq_spec]
  by_cases hl : row.length < 11
  · rw [if_pos hl]
    constructor
    · intro h
      exact absurd h (by simp)
    · rintro ⟨h11, -⟩
      omega
  · rw [if_neg hl]
    have h11 : 11 ≤ row.length := by omega
    rcases hp : prefRowSpecName (pyStrip (cell row 0)) (pyStrip (cell row 1)) with _ | pref
    · dsimp only
      constructor
      · intro h
        exact absurd h (by simp)
      · rintro ⟨-, p, m, hps, -, -⟩
        exact Option.noConfusion hps
    · dsimp only
      rw [if_neg (prefRowSpec_ne_empty hp)]
      rcases hn : parse_int (cell row 2) with _ | n
      · constructor
        · intro h
          exact absurd h (by simp)
        · rintro ⟨-, p, m, hps, hm, -⟩
          exact Option.noConfusion hm
      · constructor
        · intro h
          cases h
          exact ⟨h11, pref, n, rfl, rfl, rfl⟩
        · rintro ⟨-, p, m, hps, hm, hr⟩
          injection hps with hps'
          injection hm with hm'
          rw [hr, hps', hm']

/-- Closed instance of C5: the characterization evaluated at a
well-formed Hokkaido data row. -/
theorem c5_witness :
    11 ≤ (["北海道", "計", "12", "", "", "", "5", "", "", "", "3"] : List String).length ∧
    ∃ pref n,
      prefRowSpecName
        (pyStrip (cell ["北海道", "計", "12", "", "", "", "5", "", "", "", "3"] 0))
        (pyStrip (cell ["北海道", "計", "12", "", "", "", "5", "", "", "", "3"] 1)) = some pref ∧
      parse_int (cell ["北海道", "計", "12", "", "", "", "5", "", "", "", "3"] 2) = some n ∧
      (⟨some 2023, "北海道", "刑法犯総数", some 12, some 5, some 3⟩ : IntermediateRecord) =
        ⟨some 2023, pref, "刑法犯総数", some n,
         parse_int (cell ["北海道", "計", "12", "", "", "", "5", "", "", "", "3"] 6),
         parse_int (cell ["北海道", "計", "12", "", "", "", "5", "", "", "", "3"] 10)⟩ :=
  (c5_row_interpretation 2023 "刑法犯総数"
    ["北海道", "計", "12", "", "", "", "5", "", "", "", "3"]
    ⟨some 2023, "北海道", "刑法犯総数", some 12, some 5, some 3⟩).mp (by decide)

/-- C6 counterexample: a header with only the date and crime-kind
columns — no prefecture column and no recognized-count column — is
accepted by the Date-Keyed parser rather than rejected: the prefecture
falls back to column 0 and the counts are all absent. -/
theorem c6_counterexample :
    parse_rows ["日付", "罪種"] [["2023-05-01", "窃盗"]] none =
      .ok [⟨some 2023, "2023-05-01", "窃盗", none, none, none⟩] :=
  rfl

/-- C6 amended: the Date-Keyed parser requires only the date and
crime-kind columns by exact name; the prefecture and all three count
columns are optional, and each absent count column yields `none` for
that count in every record, without failing. -/
theorem c6_optional_columns :
    ∀ headers rows dy,
      "日付" ∈ headers.map pyStrip → "罪種" ∈ headers.map pyStrip →
      ∃ recs, parse_rows headers rows dy = .ok recs ∧
        ∀ r ∈ recs,
          ("認知件数" ∉ headers.map pyStrip → r.count_recognized = none) ∧
          ("検挙件数" ∉ headers.map pyStrip → r.count_cleared = none) ∧
          ("検挙人員" ∉ headers.map pyStrip → r.count_arrested = none) := by
  intro headers rows dy h1 h2
  refine ⟨rows.filterMap (formatARow (headers.map pyStrip) dy), ?_, ?_⟩
  · unfold parse_rows
    dsimp only
    rw [if_pos (And.intro h1 h2)]
  · intro r hr
    obtain ⟨row, -, heq⟩ := List.mem_filterMap.mp hr
    unfold formatARow at heq
    split at heq
    · exact absurd heq (by simp)
    · split at heq
      · exact absurd heq (by simp)
      · cases heq
        unfold formatARecord
        refine ⟨?_, ?_, ?_⟩ <;> intro habs <;> exact if_neg habs

/-- Closed instance of C6 at the counterexample header. -/
theorem c6_witness :
    ∃ recs, parse_rows ["日付", "罪種"] [["2023-05-01", "窃盗"]] none = .ok recs ∧
      ∀ r ∈ recs,
        ("認知件数" ∉ (["日付", "罪種"] : List String).map pyStrip →
          r.count_recognized = none) ∧
        ("検挙件数" ∉ (["日付", "罪種"] : List String).map pyStrip →
          r.count_cleared = none) ∧
        ("検挙人員" ∉ (["日付", "罪種"] : List String).map pyStrip →
          r.count_arrested = none) :=
  c6_optional_columns ["日付", "罪種"] [["2023-05-01", "窃盗"]] none
    (by decide) (by decide)

theorem table6Label_not_denylist {row : List String} {c : String}
    (h : table6Label row = some c) : c ∉ NPA_DENYLIST := by
  unfold table6Label at h
  rcases hg : findParenGroup (String.join row).data with _ | g
  · rw [hg] at h
    exact Option.noConfusion h
  · rw [hg] at h
    dsimp only at h
    by_cases hd : pyStrip ⟨g⟩ ∈ NPA_DENYLIST
    · rw [if_pos hd] at h
      exact Option.noConfusion h
    · rw [if_neg hd] at h
      injection h with h'
      rw [← h']
      exact hd

/-- C4 counterexample: the row ["第４表", "abc"] has one of the known
section-marker literals as its first cell, yet starts no section (the
窃盗 keyword is absent from its first six cells) and the file errors;
conversely "第５表" is not one of the marker literals, yet the row
["第５表", "刑法犯総数"] does start a section. -/
theorem c4_counterexample :
    parse_npa_monthly [["第４表", "abc"]] 2023 =
      .error "第3表・第6表のセクションが見つかりませんでした。" ∧
    detectSections [["第５表", "刑法犯総数"]] 0 = [(0, "刑法犯総数")] :=
  ⟨rfl, by decide⟩

/-- C4 amended: a section starts exactly at a row classified by
`sectionOfRow` — first cell "第３表", or a cell starting with "第"
whose first six cells mention 刑法犯総数, or "第４表" with a 窃盗
keyword, or "第６表" with a parenthetical label outside the denylist;
a denylisted label never becomes a section; and a file with no detected
sections fails with the no-sections error rather than yielding zero
records. -/
theorem c4_section_detection :
    (∀ rows i, detectSections rows i =
      (List.enumFrom i rows).filterMap
        (fun p => (sectionOfRow p.2).map (fun c => (p.1, c)))) ∧
    (∀ row c, sectionOfRow row = some c → c ∉ NPA_DENYLIST) ∧
    (∀ rows year, parse_npa_monthly rows year =
        .error "第3表・第6表のセクションが見つかりませんでした。" ↔
      detectSections rows 0 = []) := by
  refine ⟨?_, ?_, ?_⟩
  · intro rows
    induction rows with
    | nil => intro i; rfl
    | cons row rest ih =>
      intro i
      cases h : sectionOfRow row <;>
        simp [detectSections, List.enumFrom, List.filterMap_cons, h, ih]
  · intro row c h
    rcases row with _ | ⟨c0raw, rest⟩
    · exact Option.noConfusion h
    · unfold sectionOfRow at h
      dsimp only at h
      split_ifs at h with h0 hA hB hC <;>
        first
          | exact Option.noConfusion h
          | (injection h with h'; rw [← h']; decide)
          | exact table6Label_not_denylist h
  · intro rows year
    unfold parse_npa_monthly
    dsimp only
    constructor
    · intro h
      by_cases he : (detectSections rows 0).isEmpty
      · exact List.isEmpty_iff.mp he
      · rw [if_neg he] at h
        exact Except.noConfusion h
    · intro h
      rw [h]
      rfl

/-- Closed instance of C4: the classification of the 第３表 marker row
is not a denylisted label. -/
theorem c4_witness : ("刑法犯総数" : String) ∉ NPA_DENYLIST :=
  c4_section_detection.2.1 ["第３表"] "刑法犯総数" (by decide)

theorem read_csv_aux_rows {f : CsvFile} :
    ∀ es hd t, read_csv_aux f es = .ok (hd, t) →
      ∃ rows, nonBlankRows rows = hd :: t := by
  intro es
  induction es with
  | nil =>
    intro hd t h
    exact Except.noConfusion h
  | cons e es ih =>
    intro hd t h
    unfold read_csv_aux at h
    rcases hd' : f.decode e with _ | rows
    · rw [hd'] at h
      exact ih hd t h
    · rw [hd'] at h
      dsimp only at h
      rcases hnb : nonBlankRows rows with _ | ⟨r0, rs⟩
      · rw [hnb] at h
        exact ih hd t h
      · rw [hnb] at h
        dsimp only at h
        injection h with h'
        cases h'
        exact ⟨rows, hnb⟩

/-- C9 counterexample: for a file that decodes under both utf-8-sig and
shift-jis, the tabular reader picks the utf-8-sig decoding and discards
the blank row, while the Multi-Section reader picks the shift-jis
decoding first and keeps the all-blank row — so the claimed ordering
and blank-row discarding do not apply to Multi-Section files. -/
theorem c9_counterexample :
    read_npa_csv ⟨fun e => if e = "shift-jis" then some [[" "], ["b", "2"]]
      else if e = "utf-8-sig" then some [["a", "1"]] else none⟩ =
      .ok [[" "], ["b", "2"]] ∧
    read_csv ⟨fun e => if e = "shift-jis" then some [[" "], ["b", "2"]]
      else if e = "utf-8-sig" then some [["a", "1"]] else none⟩ =
      .ok (["a", "1"], []) :=
  ⟨rfl, rfl⟩

/-- C9 amended: the claimed behaviour — order utf-8-sig, utf-8,
shift-jis, cp932; first decoding with a non-blank row wins; blank rows
discarded; decode error when no candidate works — holds for the tabular
reader `_read_csv`; the Multi-Section reader `_read_npa_csv` instead
tries shift-jis first, keeps every row including blank ones, and
accepts the first successful decode regardless of content. -/
theorem c9_reader_encoding :
    ∀ f : CsvFile,
      (∀ hd t, read_csv f = .ok (hd, t) → ∀ r ∈ hd :: t, ∃ c ∈ r, pyStrip c ≠ "") ∧
      ((∀ e, f.decode e = none) →
        read_csv f = .error "文字コードを判別できませんでした" ∧
        read_npa_csv f = .error "文字コードを判別できません") ∧
      (∀ rows, f.decode "shift-jis" = some rows → read_npa_csv f = .ok rows) ∧
      (∀ rows hd t, f.decode "utf-8-sig" = some rows → nonBlankRows rows = hd :: t →
        read_csv f = .ok (hd, t)) := by
  intro f
  refine ⟨?_, ?_, ?_, ?_⟩
  · intro hd t h r hr
    obtain ⟨rows, hrows⟩ := read_csv_aux_rows CSV_ENCODINGS hd t h
    rw [← hrows] at hr
    have hmem := List.mem_filter.mp hr
    have := hmem.2
    simp only [List.any_eq_true, decide_eq_true_eq] at this
    exact this
  · intro h
    constructor
    · simp [read_csv, CSV_ENCODINGS, read_csv_aux, h]
    · simp [read_npa_csv, NPA_ENCODINGS, read_npa_csv_aux, h]
  · intro rows h
    simp [read_npa_csv, NPA_ENCODINGS, read_npa_csv_aux, h]
  · intro rows hd t h1 h2
    simp [read_csv, CSV_ENCODINGS, read_csv_aux, h1, h2]

/-- Closed instance of C9: the Multi-Section reader accepts the
shift-jis decoding. -/
theorem c9_witness :
    read_npa_csv ⟨fun e => if e = "shift-jis" then some [["b", "2"]] else none⟩ =
      .ok [["b", "2"]] :=
  (c9_reader_encoding ⟨fun e => if e = "shift-jis" then some [["b", "2"]] else none⟩).2.2.1
    [["b", "2"]] (by decide)

theorem assocFind_cons {α β : Type} [DecidableEq α]
    (k0 : α) (v0 : β) (rest : List (α × β)) (k : α) :
    assocFind ((k0, v0) :: rest) k =
      if k0 = k then some v0 else assocFind rest k := by
  by_cases h : k0 = k <;> simp [assocFind, List.find?, h]

theorem assocFind_updAssoc {α β : Type} [DecidableEq α] :
    ∀ (l : List (α × β)) (k : α) (v : β) (k' : α),
      assocFind (updAssoc l k v) k' = if k' = k then some v else assocFind l k' := by
  intro l
  induction l with
  | nil =>
    intro k v k'
    by_cases h : k' = k
    · subst h
      simp [updAssoc, assocFind_cons]
    · have h' : ¬(k = k') := fun he => h he.symm
      simp [updAssoc, assocFind_cons, assocFind, h, h']
  | cons p rest ih =>
    obtain ⟨k0, v0⟩ := p
    intro k v k'
    by_cases h0 : k0 = k
    · subst h0
      rw [show updAssoc ((k0, v0) :: rest) k0 v = (k0, v) :: rest from by
        simp [updAssoc]]
      by_cases h : k0 = k'
      · subst h
        simp [assocFind_cons]
      · have h' : ¬(k' = k0) := fun he => h he.symm
        simp [assocFind_cons, h, h']
    · rw [show updAssoc ((k0, v0) :: rest) k v = (k0, v0) :: updAssoc rest k v from by
        simp [updAssoc, h0]]
      rw [assocFind_cons, assocFind_cons, ih]
      by_cases h : k0 = k'
      · subst h
        simp [h0, fun he : k0 = k => h0 he]
      · simp [h]

theorem keys_updAssoc {α β : Type} [DecidableEq α] :
    ∀ (l : List (α × β)) (k : α) (v : β),
      (updAssoc l k v).map Prod.fst =
        if k ∈ l.map Prod.fst then l.map Prod.fst else l.map Prod.fst ++ [k] := by
  intro l
  induction l with
  | nil => intro k v; simp [updAssoc]
  | cons p rest ih =>
    obtain ⟨k0, v0⟩ := p
    intro k v
    by_cases h0 : k0 = k
    · subst h0
      simp [updAssoc]
    · by_cases hm : k ∈ rest.map Prod.fst <;>
        simp [updAssoc, h0, hm, ih, Ne.symm h0]

theorem pairwise_keys_updAssoc {α β : Type} [DecidableEq α]
    {l : List (α × β)} {k : α} {v : β}
    (h : (l.map Prod.fst).Pairwise (· ≠ ·)) :
    ((updAssoc l k v).map Prod.fst).Pairwise (· ≠ ·) := by
  rw [keys_updAssoc]
  split_ifs with hm
  · exact h
  · rw [List.pairwise_append]
    refine ⟨h, List.pairwise_singleton _ _, ?_⟩
    intro a ha b hb
    rw [List.mem_singleton] at hb
    subst hb
    exact fun he => hm (he ▸ ha)

theorem snd_key_updAssoc {α β : Type} [DecidableEq α] {key : β → α} :
    ∀ (l : List (α × β)) (k : α) (v : β), key v = k →
      (∀ p ∈ l, key p.2 = p.1) → ∀ p ∈ updAssoc l k v, key p.2 = p.1 := by
  intro l
  induction l with
  | nil =>
    intro k v hv _ p hp
    simp [updAssoc] at hp
    subst hp
    exact hv
  | cons q rest ih =>
    obtain ⟨k0, v0⟩ := q
    intro k v hv hl p hp
    by_cases h0 : k0 = k
    · subst h0
      simp only [updAssoc, if_pos rfl] at hp
      rcases List.mem_cons.mp hp with hp | hp
      · subst hp
        exact hv
      · exact hl p (List.mem_cons_of_mem _ hp)
    · simp only [updAssoc, if_neg h0] at hp
      rcases List.mem_cons.mp hp with hp | hp
      · subst hp
        exact hl (k0, v0) (List.mem_cons_self _ _)
      · exact ih k v hv (fun q hq => hl q (List.mem_cons_of_mem _ hq)) p hp

theorem dict_snd_key {α β : Type} [DecidableEq α] (key : β → α) :
    ∀ (bs : List β) (acc : List (α × β)),
      (∀ p ∈ acc, key p.2 = p.1) →
      ∀ p ∈ dictInsertAll key acc bs, key p.2 = p.1 := by
  intro bs
  induction bs with
  | nil =>
    intro acc h p hp
    exact h p hp
  | cons b bs ih =>
    intro acc h p hp
    exact ih (updAssoc acc (key b) b)
      (snd_key_updAssoc acc (key b) b rfl h) p hp

theorem dict_pairwise {α β : Type} [DecidableEq α] (key : β → α) :
    ∀ (bs : List β) (acc : List (α × β)),
      ((acc.map Prod.fst).Pairwise (· ≠ ·)) →
      (((dictInsertAll key acc bs).map Prod.fst).Pairwise (· ≠ ·)) := by
  intro bs
  induction bs with
  | nil => intro acc h; exact h
  | cons b bs ih =>
    intro acc h
    exact ih (updAssoc acc (key b) b) (pairwise_keys_updAssoc h)

theorem getLast?_cons_getD {α : Type} :
    ∀ (l : List α) (a : α), (a :: l).getLast? = some (l.getLast?.getD a) := by
  intro l
  induction l with
  | nil => intro a; rfl
  | cons b t ih =>
    intro a
    rw [List.getLast?_cons_cons, ih b]
    rfl

theorem dict_lookup {α β : Type} [DecidableEq α] (key : β → α) :
    ∀ (bs : List β) (acc : List (α × β)) (k : α),
      assocFind (dictInsertAll key acc bs) k =
        match (bs.filter (fun b => decide (key b = k))).getLast? with
        | some b => some b
        | none => assocFind acc k := by
  intro bs
  induction bs with
  | nil => intro acc k; rfl
  | cons b bs ih =>
    intro acc k
    rw [show dictInsertAll key acc (b :: bs) =
        dictInsertAll key (updAssoc acc (key b) b) bs from rfl, ih]
    by_cases hb : key b = k
    · rw [List.filter_cons_of_pos (by simpa using hb), getLast?_cons_getD]
      rcases hF : (bs.filter (fun b => decide (key b = k))).getLast? with _ | x
      · dsimp only
        rw [assocFind_updAssoc, if_pos hb.symm]
        rfl
      · rfl
    · rw [List.filter_cons_of_neg (by simpa using hb)]
      rcases hF : (bs.filter (fun b => decide (key b = k))).getLast? with _ | x
      · dsimp only
        rw [assocFind_updAssoc, if_neg (fun he => hb he.symm)]
      · rfl

theorem assocFind_some_of_mem {α β : Type} [DecidableEq α] :
    ∀ (l : List (α × β)) (k : α) (v : β),
      ((l.map Prod.fst).Pairwise (· ≠ ·)) → (k, v) ∈ l →
      assocFind l k = some v := by
  intro l
  induction l with
  | nil =>
    intro k v _ hm
    simp at hm
  | cons p rest ih =>
    obtain ⟨k0, v0⟩ := p
    intro k v hpw hm
    rcases List.mem_cons.mp hm with he | hm'
    · rw [Prod.mk.injEq] at he
      obtain ⟨rfl, rfl⟩ := he
      simp [assocFind, List.find?]
    · have hk : ¬(k0 = k) := by
        intro he
        subst he
        rw [List.map_cons, List.pairwise_cons] at hpw
        exact hpw.1 k0 (List.mem_map.mpr ⟨(k0, v), hm', rfl⟩) rfl
      have hstep : assocFind ((k0, v0) :: rest) k = assocFind rest k := by
        simp [assocFind, List.find?, hk]
      rw [hstep]
      rw [List.map_cons, List.pairwise_cons] at hpw
      exact ih k v hpw.2 hm'

theorem exists_getLast?_of_ne_nil {α : Type} :
    ∀ (l : List α), l ≠ [] → ∃ a, l.getLast? = some a ∧ a ∈ l := by
  intro l
  induction l with
  | nil => intro h; exact absurd rfl h
  | cons a t ih =>
    intro _
    cases t with
    | nil => exact ⟨a, rfl, List.mem_singleton.mpr rfl⟩
    | cons b t' =>
      obtain ⟨x, hx, hmem⟩ := ih (by simp)
      exact ⟨x, by rw [List.getLast?_cons_cons]; exact hx,
        List.mem_cons_of_mem _ hmem⟩

/-- C1: the deduplication of the upsert planner groups the resolved
rows by the natural key (year, prefecture code, raw crime category):
every surviving row is the last row of its key group in file order,
surviving keys are pairwise distinct, every input key survives, the
collapsed-duplicate count (input length minus surviving length) is
added to the skipped counter, and for two rows sharing a key exactly
the later one survives. -/
theorem c1_dedup_last_wins :
    (∀ rows : List SinkRow, ∀ r ∈ dedupRows rows,
      (rows.filter (fun x => decide (dedupKey x = dedupKey r))).getLast? = some r) ∧
    (∀ rows : List SinkRow, ((dedupRows rows).map dedupKey).Pairwise (· ≠ ·)) ∧
    (∀ rows : List SinkRow, ∀ r ∈ rows,
      ∃ r' ∈ dedupRows rows, dedupKey r' = dedupKey r) ∧
    (∀ records dry_run, (insert_plan records dry_run).1 =
      ((dedupRows (records.filterMap planRow)).length,
       (records.length - (records.filterMap planRow).length) +
       ((records.filterMap planRow).length -
         (dedupRows (records.filterMap planRow)).length))) ∧
    (∀ r1 r2 : SinkRow, dedupKey r1 = dedupKey r2 → dedupRows [r1, r2] = [r2]) := by
  refine ⟨?_, ?_, ?_, ?_, ?_⟩
  · intro rows r hr
    unfold dedupRows at hr
    obtain ⟨p, hp, hsnd⟩ := List.mem_map.mp hr
    have hkey := dict_snd_key dedupKey rows [] (by simp) p hp
    have hpair := dict_pairwise dedupKey rows [] (by simp)
    have hfind : assocFind (dictInsertAll dedupKey [] rows) p.1 = some p.2 :=
      assocFind_some_of_mem _ p.1 p.2 hpair (by simpa using hp)
    rw [dict_lookup] at hfind
    rcases hF : (rows.filter (fun b => decide (dedupKey b = p.1))).getLast? with _ | x
    · rw [hF] at hfind
      exact absurd hfind (by simp [assocFind])
    · rw [hF] at hfind
      dsimp only at hfind
      injection hfind with hx
      rw [← hsnd, hkey, hF, hx]
  · intro rows
    unfold dedupRows
    have h1 : ((dictInsertAll dedupKey [] rows).map Prod.snd).map dedupKey =
        (dictInsertAll dedupKey [] rows).map Prod.fst := by
      rw [List.map_map]
      exact List.map_congr_left (fun p hp => dict_snd_key dedupKey rows [] (by simp) p hp)
    rw [h1]
    exact dict_pairwise dedupKey rows [] (by simp)
  · intro rows r hr
    have hne : rows.filter (fun b => decide (dedupKey b = dedupKey r)) ≠ [] := by
      intro h0
      have hmem : r ∈ rows.filter (fun b => decide (dedupKey b = dedupKey r)) :=
        List.mem_filter.mpr ⟨hr, by simp⟩
      rw [h0] at hmem
      simp at hmem
    obtain ⟨x, hx, hxm⟩ := exists_getLast?_of_ne_nil _ hne
    have hfind : assocFind (dictInsertAll dedupKey [] rows) (dedupKey r) = some x := by
      rw [dict_lookup, hx]
    refine ⟨x, ?_, ?_⟩
    · unfold dedupRows
      unfold assocFind at hfind
      obtain ⟨p, hp, hps⟩ := Option.map_eq_some'.mp hfind
      exact List.mem_map.mpr ⟨p, List.mem_of_find?_eq_some hp, hps⟩
    · simpa using (List.mem_filter.mp hxm).2
  · intro records dry_run
    rfl
  · intro r1 r2 h
    simp [dedupRows, dictInsertAll, updAssoc, h]

/-- Closed instance of C1: two rows sharing the natural key
(2023, "13", "窃盗") collapse to the later one. -/
theorem c1_witness :
    dedupRows
      [⟨some 2023, "13", "東京都", "窃盗", "窃盗・万引き", some 100, none, none,
        "SRID=4326;POINT(139.6917 35.6894)", "npa_estat"⟩,
       ⟨some 2023, "13", "東京都", "窃盗", "窃盗・万引き", some 200, none, none,
        "SRID=4326;POINT(139.6917 35.6894)", "npa_estat"⟩] =
      [⟨some 2023, "13", "東京都", "窃盗", "窃盗・万引き", some 200, none, none,
        "SRID=4326;POINT(139.6917 35.6894)", "npa_estat"⟩] :=
  c1_dedup_last_wins.2.2.2.2
    ⟨some 2023, "13", "東京都", "窃盗", "窃盗・万引き", some 100, none, none,
      "SRID=4326;POINT(139.6917 35.6894)", "npa_estat"⟩
    ⟨some 2023, "13", "東京都", "窃盗", "窃盗・万引き", some 200, none, none,
      "SRID=4326;POINT(139.6917 35.6894)", "npa_estat"⟩
    (by decide)

end CrimeMap
